import Mathlib

/-!
Verification of the feed ranking and personalization engine of the
infinite-social-feed backend.

The embedding follows the JavaScript source:
- `src/models/User.js` (`addLikedTag`, the bounded per-user tag profile);
- `src/services/rankingService.js` (`calculatePersonalizationScore`,
  `calculateRecencyScore`, `calculatePopularityScore`, `calculateRankingScore`,
  `calculateBatchRankingScores`, `applyDiversity`, `calculateTagOverlap`);
- `src/services/personalizationService.js` (`updateUserPreferencesOnLike`,
  cache-key deletion) and `src/controllers/feedController.js` (feed cache keys);
- `src/utils/constants.js` (weights, time constants, cache key formats).

JavaScript numbers are modelled as real numbers (`ℝ`) where the source does
float arithmetic, as `ℚ` where the value is only compared against a rational
threshold, and as `ℕ` for the integer counters of the tag profile.
Date values are modelled as millisecond timestamps.  `Array.prototype.sort`
with comparator `(a, b) => b.count - a.count` is a stable sort ordering by
`count` descending; it is modelled by `List.insertionSort`, which is stable
with the reflexive relation `countGe` (ties keep their original order, as in
the engine: V8's sort is stable per the ECMAScript spec).
-/

/-- `String.prototype.toLowerCase`, modelled characterwise (agrees with the
JavaScript function on the ASCII tags the engine manipulates). -/
def jsToLower (s : String) : String := String.mk (s.data.map Char.toLower)

/-! ## Tag preference profile (src/models/User.js, `likedTags` and `addLikedTag`) -/

/-- One element of the `likedTags` array of the user schema:
`{ tag, count, lastLikedAt }`. -/
structure TagEntry where
  tag : String
  count : ℕ
  lastLikedAt : ℕ
deriving DecidableEq, Repr

/-- The comparator `(a, b) => b.count - a.count` used by `addLikedTag`:
`a` sorts no later than `b` iff `b.count ≤ a.count` (descending by count). -/
def countGe (a b : TagEntry) : Prop := b.count ≤ a.count

instance : DecidableRel countGe := fun a b => Nat.decLe b.count a.count

instance : IsTotal TagEntry countGe := ⟨fun a b => Nat.le_total b.count a.count⟩

instance : IsTrans TagEntry countGe := ⟨fun _ _ _ h1 h2 => Nat.le_trans h2 h1⟩

/-- The mutation of the first entry whose `tag` equals the key:
`existingTag.count += 1; existingTag.lastLikedAt = new Date()`
(`Array.prototype.find` returns the first match, and the mutation happens
through that reference). -/
def bumpFirst (key : String) (now : ℕ) : List TagEntry → List TagEntry
  | [] => []
  | e :: rest =>
    if e.tag = key then { e with count := e.count + 1, lastLikedAt := now } :: rest
    else e :: bumpFirst key now rest

/-- The pre-truncation body of `addLikedTag`: bump the first entry matching
`tag.toLowerCase()` if one exists, else push `{ tag, count: 1, lastLikedAt }`. -/
def applyLikeStep (now : ℕ) (tag : String) (likedTags : List TagEntry) : List TagEntry :=
  if (likedTags.find? (fun e => decide (e.tag = jsToLower tag))).isSome then
    bumpFirst (jsToLower tag) now likedTags
  else
    likedTags ++ [⟨jsToLower tag, 1, now⟩]

/-- `userSchema.methods.addLikedTag` (User.js lines 158-179): mutate or insert,
then, if more than 100 entries remain, sort by `count` descending (stable) and
keep the first 100. -/
def addLikedTag (now : ℕ) (tag : String) (likedTags : List TagEntry) : List TagEntry :=
  let updated := applyLikeStep now tag likedTags
  if 100 < updated.length then (updated.insertionSort countGe).take 100 else updated

/-- A sequence of `addLikedTag` calls applied to the initially empty profile. -/
def applyLikes (calls : List (ℕ × String)) : List TagEntry :=
  calls.foldl (fun l c => addLikedTag c.1 c.2 l) []

/-- The stored weight of a key in a profile: the `count` of the first entry
whose `tag` equals the key, `0` when the key is absent. -/
def tagWeight (key : String) (l : List TagEntry) : ℕ :=
  match l.find? (fun e => decide (e.tag = key)) with
  | some e => e.count
  | none => 0

/-! ### Profile lemmas -/

theorem bumpFirst_length (key : String) (now : ℕ) :
    ∀ l : List TagEntry, (bumpFirst key now l).length = l.length := by
  intro l
  induction l with
  | nil => rfl
  | cons e rest ih =>
    by_cases he : e.tag = key <;> simp [bumpFirst, he, ih]

theorem tagWeight_bumpFirst (key : String) (now : ℕ) :
    ∀ l : List TagEntry,
      (l.find? (fun e => decide (e.tag = key))).isSome →
      tagWeight key (bumpFirst key now l) = tagWeight key l + 1 := by
  intro l
  induction l with
  | nil => intro h; simp at h
  | cons e rest ih =>
    intro h
    by_cases he : e.tag = key
    · simp [bumpFirst, he, tagWeight, List.find?_cons_of_pos, he]
    · have hrest : (rest.find? (fun e => decide (e.tag = key))).isSome := by
        simpa [List.find?_cons_of_neg, he] using h
      simp only [bumpFirst, if_neg he]
      simpa [tagWeight, List.find?_cons_of_neg, he] using ih hrest

theorem bumpFirst_count_pos (key : String) (now : ℕ) :
    ∀ l : List TagEntry, (∀ e ∈ l, 1 ≤ e.count) →
      ∀ e ∈ bumpFirst key now l, 1 ≤ e.count := by
  intro l
  induction l with
  | nil => intro _ e he; simp [bumpFirst] at he
  | cons a rest ih =>
    intro h e he
    by_cases ha : a.tag = key
    · rw [bumpFirst, if_pos ha] at he
      rcases List.mem_cons.1 he with rfl | hmem
      · simp
      · exact h e (List.mem_cons_of_mem a hmem)
    · rw [bumpFirst, if_neg ha] at he
      rcases List.mem_cons.1 he with rfl | hmem
      · exact h e (List.mem_cons_self e rest)
      · exact ih (fun x hx => h x (List.mem_cons_of_mem a hx)) e hmem

theorem applyLikeStep_count_pos (now : ℕ) (tag : String) (l : List TagEntry)
    (h : ∀ e ∈ l, 1 ≤ e.count) : ∀ e ∈ applyLikeStep now tag l, 1 ≤ e.count := by
  intro e he
  rw [applyLikeStep] at he
  split at he
  · exact bumpFirst_count_pos _ _ l h e he
  · rcases List.mem_append.1 he with hmem | hmem
    · exact h e hmem
    · simp at hmem
      simp [hmem]

theorem addLikedTag_length_le (now : ℕ) (tag : String) (l : List TagEntry) :
    (addLikedTag now tag l).length ≤ 100 := by
  rw [addLikedTag]
  split
  · simp
  · omega

/-- Concrete 100-entry profile used to exercise the eviction path:
tags `t0`..`t98` with count 2, tag `t99` with count 1, all last liked at
time 50. -/
def c5base : List TagEntry :=
  (List.range 100).map (fun i => ⟨"t" ++ toString i, if i < 99 then 2 else 1, 50⟩)

theorem applyLikeStep_mem (now : ℕ) (tag : String) (l : List TagEntry)
    (e : TagEntry) (he : e ∈ applyLikeStep now tag l) :
    e ∈ bumpFirst (jsToLower tag) now l ∨ e ∈ l ∨ e = ⟨jsToLower tag, 1, now⟩ := by
  rw [applyLikeStep] at he
  split at he
  · exact Or.inl he
  · rcases List.mem_append.1 he with hmem | hmem
    · exact Or.inr (Or.inl hmem)
    · simp at hmem
      exact Or.inr (Or.inr hmem)

theorem addLikedTag_mem (now : ℕ) (tag : String) (l : List TagEntry)
    (e : TagEntry) (he : e ∈ addLikedTag now tag l) :
    e ∈ applyLikeStep now tag l := by
  rw [addLikedTag] at he
  split at he
  · exact (List.perm_insertionSort countGe _).subset (List.take_subset _ _ he)
  · exact he

/-! ### Claims C3, C4, C5 -/

/-- C3: starting from the empty profile, every sequence of `addLikedTag`
(record-engagement) calls leaves the `likedTags` list with at most 100
entries immediately after every call; indeed a single call is bounded from
any starting profile. -/
theorem addLikedTag_bounded :
    (∀ (now : ℕ) (tag : String) (l : List TagEntry),
      (addLikedTag now tag l).length ≤ 100) ∧
    (∀ calls : List (ℕ × String), (applyLikes calls).length ≤ 100) := by
  refine ⟨addLikedTag_length_le, ?_⟩
  intro calls
  have key : ∀ init : List TagEntry, init.length ≤ 100 →
      (calls.foldl (fun l c => addLikedTag c.1 c.2 l) init).length ≤ 100 := by
    induction calls with
    | nil => intro init h; simpa using h
    | cons c rest ih => intro init _; exact ih _ (addLikedTag_length_le c.1 c.2 init)
  simpa [applyLikes] using key [] (by simp)

/-- C4: on any reachable profile (at most 100 entries), an `addLikedTag` call
never decreases the stored weight of the lowercased tag it records, and
entry weights stay positive (hence never negative). -/
theorem addLikedTag_weight_monotone (now : ℕ) (tag : String) (l : List TagEntry)
    (hlen : l.length ≤ 100) :
    tagWeight (jsToLower tag) l ≤ tagWeight (jsToLower tag) (addLikedTag now tag l) ∧
    ((∀ e ∈ l, 1 ≤ e.count) → ∀ e ∈ addLikedTag now tag l, 1 ≤ e.count) := by
  constructor
  · by_cases hfind : (l.find? (fun e => decide (e.tag = jsToLower tag))).isSome
    · have hstep : applyLikeStep now tag l = bumpFirst (jsToLower tag) now l := by
        rw [applyLikeStep, if_pos hfind]
      have hlen2 : (applyLikeStep now tag l).length = l.length := by
        rw [hstep]; exact bumpFirst_length _ _ l
      have hnot : ¬ 100 < (applyLikeStep now tag l).length := by omega
      simp only [addLikedTag]
      rw [if_neg hnot, hstep, tagWeight_bumpFirst _ _ l hfind]
      exact Nat.le_succ _
    · have hzero : tagWeight (jsToLower tag) l = 0 := by
        rw [Option.not_isSome_iff_eq_none] at hfind
        simp [tagWeight, hfind]
      simp [hzero]
  · intro hpos e he
    exact applyLikeStep_count_pos now tag l hpos e (addLikedTag_mem now tag l e he)

/-- C4 witness: concrete instance of the monotonicity statement. -/
theorem addLikedTag_weight_monotone_witness :
    (([⟨"cats", 3, 0⟩] : List TagEntry).length ≤ 100 ∧
      (∀ e ∈ ([⟨"cats", 3, 0⟩] : List TagEntry), 1 ≤ e.count)) ∧
    (tagWeight (jsToLower "cats") [⟨"cats", 3, 0⟩] ≤
      tagWeight (jsToLower "cats") (addLikedTag 7 "cats" [⟨"cats", 3, 0⟩]) ∧
      (∀ e ∈ addLikedTag 7 "cats" [⟨"cats", 3, 0⟩], 1 ≤ e.count)) := by
  have h := addLikedTag_weight_monotone 7 "cats" [⟨"cats", 3, 0⟩] (by decide)
  exact ⟨⟨by decide, by decide⟩, h.1, h.2 (by decide)⟩

/-- C5 counterexample: liking the fresh tag `new` (count 1, lastLikedAt 100)
on a full profile whose lowest-weight entry `t99` also has count 1 but an
older `lastLikedAt` (50) leaves 101 entries; the claimed tie-break (more
recent `lastLikedAt` first) would evict `t99`, but the code evicts the just
liked `new` entry and keeps `t99`. -/
theorem addLikedTag_tiebreak_counterexample :
    (applyLikeStep 100 "new" c5base).length = 101 ∧
    (⟨"new", 1, 100⟩ : TagEntry) ∈ applyLikeStep 100 "new" c5base ∧
    (addLikedTag 100 "new" c5base).find? (fun e => decide (e.tag = "new")) = none ∧
    (addLikedTag 100 "new" c5base).find? (fun e => decide (e.tag = "t99")) =
      some ⟨"t99", 1, 50⟩ := by
  decide

/-- C5 (amended): when a call leaves more than 100 entries, the result is the
stable sort of the mutated list by weight descending truncated to exactly
100 entries — ties keep their previous relative order and `lastLikedAt`
plays no role in eviction. -/
theorem addLikedTag_eviction_amended (now : ℕ) (tag : String) (l : List TagEntry)
    (h : 100 < (applyLikeStep now tag l).length) :
    addLikedTag now tag l = ((applyLikeStep now tag l).insertionSort countGe).take 100 ∧
    (addLikedTag now tag l).length = 100 ∧
    List.Sorted countGe (addLikedTag now tag l) ∧
    List.Subperm (addLikedTag now tag l) (applyLikeStep now tag l) := by
  have heq : addLikedTag now tag l =
      ((applyLikeStep now tag l).insertionSort countGe).take 100 := by
    simp only [addLikedTag]; rw [if_pos h]
  refine ⟨heq, ?_, ?_, ?_⟩
  · rw [heq, List.length_take, (List.perm_insertionSort countGe _).length_eq]
    omega
  · rw [heq]
    exact List.Pairwise.sublist (List.take_sublist _ _) (List.sorted_insertionSort countGe _)
  · rw [heq]
    exact (List.take_sublist _ _).subperm.trans (List.perm_insertionSort countGe _).subperm

/-- C5 witness: the amended statement at the concrete 101-entry instance. -/
theorem addLikedTag_eviction_amended_witness :
    100 < (applyLikeStep 100 "new" c5base).length ∧
    addLikedTag 100 "new" c5base =
      ((applyLikeStep 100 "new" c5base).insertionSort countGe).take 100 :=
  ⟨by decide, (addLikedTag_eviction_amended 100 "new" c5base (by decide)).1⟩

/-! ## Scoring engine (src/services/rankingService.js, src/utils/constants.js) -/

/-- `PERSONALIZATION_WEIGHT` default from constants.js. -/
def PERSONALIZATION_WEIGHT : ℝ := 0.4

/-- `RECENCY_WEIGHT` default from constants.js. -/
def RECENCY_WEIGHT : ℝ := 0.3

/-- `POPULARITY_WEIGHT` default from constants.js. -/
def POPULARITY_WEIGHT : ℝ := 0.3

/-- `DAY_IN_MS` from constants.js. -/
def DAY_IN_MS : ℝ := 24 * 60 * 60 * 1000

/-- The `userTagPreferences` map built by `calculatePersonalizationScore`:
each profile entry is stored under its lowercased tag, later duplicates
overwriting earlier ones (`Map.prototype.set`).  Lookup of a key returns the
stored count, if any. -/
noncomputable def userTagPreferences (userLikedTags : List (String × ℝ)) (key : String) :
    Option ℝ :=
  (((userLikedTags.map (fun p => (jsToLower p.1, p.2))).reverse.find?
    (fun p => decide (p.1 = key))).map (fun p => p.2))

/-- `totalTagWeight`: the sum of all profile counts (duplicates included). -/
noncomputable def totalTagWeight (userLikedTags : List (String × ℝ)) : ℝ :=
  (userLikedTags.map (fun p => p.2)).sum

/-- The `matchScore` accumulator: for each post tag whose lowercased form is
in the preference map, add `weight / totalTagWeight`. -/
noncomputable def matchScore (postTags : List String) (userLikedTags : List (String × ℝ)) : ℝ :=
  (postTags.map (fun t =>
    match userTagPreferences userLikedTags (jsToLower t) with
    | some w => w / totalTagWeight userLikedTags
    | none => 0)).sum

/-- The `matchedTags` counter: the number of post tags found in the map. -/
noncomputable def matchedTags (postTags : List String) (userLikedTags : List (String × ℝ)) : ℕ :=
  (postTags.filter (fun t =>
    (userTagPreferences userLikedTags (jsToLower t)).isSome)).length

/-- `RankingService.calculatePersonalizationScore` (rankingService.js 20-56). -/
noncomputable def calculatePersonalizationScore (postTags : List String)
    (userLikedTags : List (String × ℝ)) : ℝ :=
  if postTags = [] ∨ userLikedTags = [] then 0
  else if totalTagWeight userLikedTags = 0 then 0
  else
    let normalizedScore :=
      if 0 < postTags.length then
        matchScore postTags userLikedTags / Real.sqrt (postTags.length : ℝ)
      else 0
    let matchPercentage := (matchedTags postTags userLikedTags : ℝ) / (postTags.length : ℝ)
    min (normalizedScore * (1 + matchPercentage)) 1

/-- `RankingService.calculateRecencyScore` (rankingService.js 63-76): `none`
models a missing `createdAt` (the `!createdAt` guard); otherwise exponential
decay with a 2-day half-life, clamped to `[0, 1]`. -/
noncomputable def calculateRecencyScore (now : ℝ) : Option ℝ → ℝ
  | none => 0
  | some createdAt =>
    let ageInMs := now - createdAt
    let ageInDays := ageInMs / DAY_IN_MS
    let halfLife : ℝ := 2
    let decayFactor := (0.5 : ℝ) ^ (ageInDays / halfLife)
    max 0 (min 1 decayFactor)

/-- `RankingService.calculatePopularityScore` (rankingService.js 88-114);
`createdAt = none` models a falsy creation date (age treated as 0). -/
noncomputable def calculatePopularityScore (likesCount commentsCount sharesCount viewsCount : ℝ)
    (createdAt : Option ℝ) (now : ℝ) : ℝ :=
  let engagementScore := likesCount * 1 + commentsCount * 2 + sharesCount * 3
  let engagementRate := if 0 < viewsCount then engagementScore / viewsCount else 0
  let ageInHours := match createdAt with
    | some t => (now - t) / (1000 * 60 * 60)
    | none => 0
  let timeAdjustment := max 0.1 (Real.exp (-ageInHours / 24))
  let rawScore := Real.log (engagementScore + 1) / Real.log 1000
  let adjustedScore := rawScore * timeAdjustment
  let finalScore := adjustedScore * 0.7 + engagementRate * 0.3
  min 1 finalScore

/-! ### Scoring lemmas -/

theorem userTagPreferences_nonneg (prefs : List (String × ℝ))
    (hw : ∀ p ∈ prefs, 0 ≤ p.2) (key : String) (w : ℝ)
    (h : userTagPreferences prefs key = some w) : 0 ≤ w := by
  rw [userTagPreferences] at h
  obtain ⟨pair, hpair, hsnd⟩ := Option.map_eq_some'.1 h
  have hmem := List.mem_of_find?_eq_some hpair
  rw [List.mem_reverse] at hmem
  obtain ⟨p, hp, hfp⟩ := List.mem_map.1 hmem
  have : p.2 = w := by rw [← hsnd, ← hfp]
  rw [← this]
  exact hw p hp

theorem totalTagWeight_nonneg (prefs : List (String × ℝ))
    (hw : ∀ p ∈ prefs, 0 ≤ p.2) : 0 ≤ totalTagWeight prefs := by
  apply List.sum_nonneg
  intro x hx
  obtain ⟨p, hp, rfl⟩ := List.mem_map.1 hx
  exact hw p hp

theorem matchScore_nonneg (postTags : List String) (prefs : List (String × ℝ))
    (hw : ∀ p ∈ prefs, 0 ≤ p.2) (ht : 0 < totalTagWeight prefs) :
    0 ≤ matchScore postTags prefs := by
  apply List.sum_nonneg
  intro x hx
  obtain ⟨t, _, rfl⟩ := List.mem_map.1 hx
  cases hu : userTagPreferences prefs (jsToLower t) with
  | none => simp [hu]
  | some w =>
    simp only [hu]
    exact div_nonneg (userTagPreferences_nonneg prefs hw _ w hu) ht.le

theorem calculatePersonalizationScore_bounds (postTags : List String)
    (prefs : List (String × ℝ)) (hw : ∀ p ∈ prefs, 0 ≤ p.2) :
    0 ≤ calculatePersonalizationScore postTags prefs ∧
    calculatePersonalizationScore postTags prefs ≤ 1 := by
  rw [calculatePersonalizationScore]
  split
  · norm_num
  split
  next h1 h2 => norm_num
  next h1 h2 =>
    have htpos : 0 < totalTagWeight prefs :=
      lt_of_le_of_ne (totalTagWeight_nonneg prefs hw) (Ne.symm h2)
    refine ⟨le_min ?_ zero_le_one, min_le_right _ _⟩
    apply mul_nonneg
    · split
      · exact div_nonneg (matchScore_nonneg postTags prefs hw htpos) (Real.sqrt_nonneg _)
      · exact le_refl 0
    · have hpct : (0:ℝ) ≤ (matchedTags postTags prefs : ℝ) / (postTags.length : ℝ) :=
        div_nonneg (Nat.cast_nonneg _) (Nat.cast_nonneg _)
      linarith

theorem calculateRecencyScore_bounds (now : ℝ) (d : Option ℝ) :
    0 ≤ calculateRecencyScore now d ∧ calculateRecencyScore now d ≤ 1 := by
  cases d with
  | none => simp [calculateRecencyScore]
  | some t =>
    rw [calculateRecencyScore]
    exact ⟨le_max_left 0 _, max_le zero_le_one (min_le_left _ _)⟩

theorem calculatePopularityScore_bounds (likes comments shares views : ℝ)
    (d : Option ℝ) (now : ℝ) (hl : 0 ≤ likes) (hc : 0 ≤ comments)
    (hs : 0 ≤ shares) (hv : 0 ≤ views) :
    0 ≤ calculatePopularityScore likes comments shares views d now ∧
    calculatePopularityScore likes comments shares views d now ≤ 1 := by
  rw [calculatePopularityScore.eq_def]
  have he : (0:ℝ) ≤ likes * 1 + comments * 2 + shares * 3 := by linarith
  have hrate : (0:ℝ) ≤
      (if 0 < views then (likes * 1 + comments * 2 + shares * 3) / views else 0) := by
    split
    next hvpos => exact div_nonneg he hvpos.le
    next => exact le_refl 0
  have hraw : (0:ℝ) ≤ Real.log (likes * 1 + comments * 2 + shares * 3 + 1) / Real.log 1000 :=
    div_nonneg (Real.log_nonneg (by linarith)) (Real.log_pos (by norm_num)).le
  have htadj : (0:ℝ) ≤ max 0.1 (Real.exp (-(match d with
      | some t => (now - t) / (1000 * 60 * 60)
      | none => 0) / 24)) :=
    le_trans (by norm_num) (le_max_left _ _)
  exact ⟨le_min zero_le_one (by positivity), min_le_left _ _⟩

/-! ### Claims C1, C9, C10 -/

/-- C1: with a non-empty post tag list, a non-empty profile and positive total
weight, `calculatePersonalizationScore` equals
`min((sum over matched tags of weight/totalWeight) / sqrt(|postTags|)
  * (1 + matchedTags/|postTags|), 1)`. -/
theorem calculatePersonalizationScore_formula (postTags : List String)
    (prefs : List (String × ℝ)) (h1 : postTags ≠ []) (h2 : prefs ≠ [])
    (h3 : 0 < totalTagWeight prefs) :
    calculatePersonalizationScore postTags prefs =
      min (matchScore postTags prefs / Real.sqrt (postTags.length : ℝ) *
        (1 + (matchedTags postTags prefs : ℝ) / (postTags.length : ℝ))) 1 := by
  have hlen : 0 < postTags.length := List.length_pos.2 h1
  rw [calculatePersonalizationScore,
    if_neg (by push_neg; exact ⟨h1, h2⟩), if_neg (ne_of_gt h3)]
  simp [hlen]

/-- C1 witness: the concrete scenario, profile `{cats: 10, dogs: 2}` and post
tags `["cats", "birds"]`, evaluates to `min((10/12)/sqrt(2) * 1.5, 1)`. -/
theorem calculatePersonalizationScore_formula_witness :
    ((["cats", "birds"] : List String) ≠ [] ∧
      ([("cats", (10:ℝ)), ("dogs", 2)] : List (String × ℝ)) ≠ [] ∧
      0 < totalTagWeight [("cats", (10:ℝ)), ("dogs", 2)]) ∧
    calculatePersonalizationScore ["cats", "birds"] [("cats", (10:ℝ)), ("dogs", 2)] =
      min (10 / 12 / Real.sqrt 2 * (1 + 1 / 2)) 1 := by
  have htot : totalTagWeight [("cats", (10:ℝ)), ("dogs", 2)] = 12 := by
    norm_num [totalTagWeight]
  have hcats : userTagPreferences [("cats", (10:ℝ)), ("dogs", 2)] (jsToLower "cats") =
      some 10 := rfl
  have hbirds : userTagPreferences [("cats", (10:ℝ)), ("dogs", 2)] (jsToLower "birds") =
      none := rfl
  have hms : matchScore ["cats", "birds"] [("cats", (10:ℝ)), ("dogs", 2)] = 10 / 12 := by
    simp only [matchScore, List.map_cons, List.map_nil, List.sum_cons, List.sum_nil,
      hcats, hbirds, htot]
    norm_num
  have hmt : matchedTags ["cats", "birds"] [("cats", (10:ℝ)), ("dogs", 2)] = 1 := by
    simp [matchedTags, List.filter, hcats, hbirds]
  refine ⟨⟨by simp, by simp, by rw [htot]; norm_num⟩, ?_⟩
  rw [calculatePersonalizationScore_formula ["cats", "birds"]
    [("cats", (10:ℝ)), ("dogs", 2)] (by simp) (by simp) (by rw [htot]; norm_num),
    hms, hmt]
  norm_num

/-- C9: with identical inputs except for the creation timestamp, the strictly
newer post has a `calculateRecencyScore` at least as large as the older one. -/
theorem calculateRecencyScore_monotone (now tOld tNew : ℝ) (h : tOld < tNew) :
    calculateRecencyScore now (some tOld) ≤ calculateRecencyScore now (some tNew) := by
  rw [calculateRecencyScore, calculateRecencyScore]
  apply max_le_max le_rfl
  apply min_le_min le_rfl
  apply Real.rpow_le_rpow_of_exponent_ge (by norm_num) (by norm_num)
  have hD : (0:ℝ) < DAY_IN_MS := by norm_num [DAY_IN_MS]
  have : now - tNew ≤ now - tOld := by linarith
  have hdiv : (now - tNew) / DAY_IN_MS ≤ (now - tOld) / DAY_IN_MS :=
    (div_le_div_iff_of_pos_right hD).2 this
  linarith

/-- C9 witness: concrete instance of recency monotonicity. -/
theorem calculateRecencyScore_monotone_witness :
    ((-1 : ℝ) < 0) ∧
    calculateRecencyScore 5 (some (-1)) ≤ calculateRecencyScore 5 (some 0) :=
  ⟨by norm_num, calculateRecencyScore_monotone 5 (-1) 0 (by norm_num)⟩

/-- C10: a post created at or after the evaluation time gets a recency score
of exactly 1: the decay value, which is at least 1 for non-positive age, is
clamped to the upper bound. -/
theorem calculateRecencyScore_future_clamped (now t : ℝ) (h : now ≤ t) :
    calculateRecencyScore now (some t) = 1 := by
  rw [calculateRecencyScore]
  have hD : (0:ℝ) < DAY_IN_MS := by norm_num [DAY_IN_MS]
  have hage : (now - t) / DAY_IN_MS / 2 ≤ 0 := by
    apply div_nonpos_of_nonpos_of_nonneg _ (by norm_num : (0:ℝ) ≤ 2)
    exact div_nonpos_of_nonpos_of_nonneg (by linarith) hD.le
  have h1 : (1:ℝ) ≤ (0.5 : ℝ) ^ ((now - t) / DAY_IN_MS / 2) :=
    Real.one_le_rpow_of_pos_of_le_one_of_nonpos (by norm_num) (by norm_num) hage
  rw [min_eq_left h1, max_eq_right zero_le_one]

/-- C10 witness: a post created exactly at the evaluation time scores 1. -/
theorem calculateRecencyScore_future_clamped_witness :
    ((0 : ℝ) ≤ 0) ∧ calculateRecencyScore 0 (some 0) = 1 :=
  ⟨le_refl 0, calculateRecencyScore_future_clamped 0 0 (le_refl 0)⟩

/-! ## Posts and the composite ranking score -/

/-- The `tags` field of a candidate post as seen by the ranking service:
a proper array, absent (`undefined`, falsy, so the personalization guard
returns 0), or a truthy non-array value (on which `postTags.forEach` raises
a `TypeError`). -/
inductive TagsField
  | arr (tags : List String)
  | missing
  | malformed

/-- The `createdAt` field: a date (millisecond timestamp), absent (falsy, so
the recency guard returns 0 and the popularity age is 0), or a truthy
non-date value (on which `createdAt.getTime()` raises a `TypeError`). -/
inductive DateField
  | date (ms : ℝ)
  | missing
  | malformed

/-- A candidate post as consumed by `calculateRankingScore`: engagement
counters may be absent (destructuring defaults them to 0). -/
structure Post where
  tags : TagsField
  likesCount : Option ℝ
  commentsCount : Option ℝ
  sharesCount : Option ℝ
  viewsCount : Option ℝ
  createdAt : DateField

/-- The personalization step of `calculateRankingScore`: ok value, or the
exception a malformed tags field raises. -/
noncomputable def personalizationScoreE (tags : TagsField)
    (prefs : List (String × ℝ)) : Except Unit ℝ :=
  match tags with
  | .arr l => .ok (calculatePersonalizationScore l prefs)
  | .missing => .ok 0
  | .malformed => .error ()

/-- The recency step of `calculateRankingScore`. -/
noncomputable def recencyScoreE (now : ℝ) : DateField → Except Unit ℝ
  | .date t => .ok (calculateRecencyScore now (some t))
  | .missing => .ok (calculateRecencyScore now none)
  | .malformed => .error ()

/-- The popularity step of `calculateRankingScore`: engagement fields default
to 0 when absent, a malformed date raises. -/
noncomputable def popularityScoreE (now : ℝ) (post : Post) : Except Unit ℝ :=
  match post.createdAt with
  | .date t => .ok (calculatePopularityScore (post.likesCount.getD 0)
      (post.commentsCount.getD 0) (post.sharesCount.getD 0)
      (post.viewsCount.getD 0) (some t) now)
  | .missing => .ok (calculatePopularityScore (post.likesCount.getD 0)
      (post.commentsCount.getD 0) (post.sharesCount.getD 0)
      (post.viewsCount.getD 0) none now)
  | .malformed => .error ()

/-- The body of the `try` block of `calculateRankingScore` (rankingService.js
122-161): the three sub-scores in source order, combined with the configured
weights; any raised exception propagates to the `catch`. -/
noncomputable def rankingScoreBody (now : ℝ) (post : Post)
    (prefs : List (String × ℝ)) : Except Unit ℝ :=
  match personalizationScoreE post.tags prefs with
  | .error e => .error e
  | .ok personalizationScore =>
    match recencyScoreE now post.createdAt with
    | .error e => .error e
    | .ok recencyScore =>
      match popularityScoreE now post with
      | .error e => .error e
      | .ok popularityScore =>
        .ok (personalizationScore * PERSONALIZATION_WEIGHT +
          recencyScore * RECENCY_WEIGHT +
          popularityScore * POPULARITY_WEIGHT)

/-- `RankingService.calculateRankingScore`: the `catch` converts any raised
exception into the score 0. -/
noncomputable def calculateRankingScore (now : ℝ) (post : Post)
    (prefs : List (String × ℝ)) : ℝ :=
  match rankingScoreBody now post prefs with
  | .ok v => v
  | .error _ => 0

/-- The result shape of `calculateBatchRankingScores`:
`{ ...post, rankingScore, _personalizedFor }`. -/
structure RankedPost where
  post : Post
  rankingScore : ℝ
  personalizedFor : String

/-- `RankingService.calculateBatchRankingScores` (rankingService.js 169-175). -/
noncomputable def calculateBatchRankingScores (now : ℝ) (posts : List Post)
    (prefs : List (String × ℝ)) : List RankedPost :=
  posts.map (fun post =>
    ⟨post, calculateRankingScore now post prefs,
      if 0 < prefs.length then "user" else "general"⟩)

theorem rankingScoreBody_ok_bounds (now : ℝ) (post : Post)
    (prefs : List (String × ℝ)) (hw : ∀ p ∈ prefs, 0 ≤ p.2)
    (hl : 0 ≤ post.likesCount.getD 0) (hc : 0 ≤ post.commentsCount.getD 0)
    (hs : 0 ≤ post.sharesCount.getD 0) (hv : 0 ≤ post.viewsCount.getD 0)
    (v : ℝ) (hok : rankingScoreBody now post prefs = .ok v) :
    0 ≤ v ∧ v ≤ 1 := by
  have key : ∀ (p r q : ℝ), 0 ≤ p → p ≤ 1 → 0 ≤ r → r ≤ 1 → 0 ≤ q → q ≤ 1 →
      0 ≤ p * PERSONALIZATION_WEIGHT + r * RECENCY_WEIGHT + q * POPULARITY_WEIGHT ∧
      p * PERSONALIZATION_WEIGHT + r * RECENCY_WEIGHT + q * POPULARITY_WEIGHT ≤ 1 := by
    intro p r q hp0 hp1 hr0 hr1 hq0 hq1
    rw [PERSONALIZATION_WEIGHT, RECENCY_WEIGHT, POPULARITY_WEIGHT]
    constructor <;> nlinarith
  rcases htf : post.tags with l | _ | _ <;>
    rcases hdf : post.createdAt with t | _ | _ <;>
    simp only [rankingScoreBody, personalizationScoreE, recencyScoreE, popularityScoreE,
      htf, hdf, Except.ok.injEq, reduceCtorEq] at hok
  all_goals subst hok
  · exact key _ _ _ (calculatePersonalizationScore_bounds l prefs hw).1
      (calculatePersonalizationScore_bounds l prefs hw).2
      (calculateRecencyScore_bounds now (some t)).1
      (calculateRecencyScore_bounds now (some t)).2
      (calculatePopularityScore_bounds _ _ _ _ (some t) now hl hc hs hv).1
      (calculatePopularityScore_bounds _ _ _ _ (some t) now hl hc hs hv).2
  · exact key _ _ _ (calculatePersonalizationScore_bounds l prefs hw).1
      (calculatePersonalizationScore_bounds l prefs hw).2
      (calculateRecencyScore_bounds now none).1
      (calculateRecencyScore_bounds now none).2
      (calculatePopularityScore_bounds _ _ _ _ none now hl hc hs hv).1
      (calculatePopularityScore_bounds _ _ _ _ none now hl hc hs hv).2
  · exact key 0 _ _ le_rfl zero_le_one
      (calculateRecencyScore_bounds now (some t)).1
      (calculateRecencyScore_bounds now (some t)).2
      (calculatePopularityScore_bounds _ _ _ _ (some t) now hl hc hs hv).1
      (calculatePopularityScore_bounds _ _ _ _ (some t) now hl hc hs hv).2
  · exact key 0 _ _ le_rfl zero_le_one
      (calculateRecencyScore_bounds now none).1
      (calculateRecencyScore_bounds now none).2
      (calculatePopularityScore_bounds _ _ _ _ none now hl hc hs hv).1
      (calculatePopularityScore_bounds _ _ _ _ none now hl hc hs hv).2

/-! ### Claims C2, C8 -/

/-- C2: with non-negative profile weights and engagement counts, the
personalization, recency and popularity scores all lie in `[0, 1]`, the three
configured weights are non-negative and sum to 1, and the weighted composite
`calculateRankingScore` lies in `[0, 1]`. -/
theorem rankingScores_bounded (now : ℝ) (postTags : List String)
    (prefs : List (String × ℝ)) (d : Option ℝ) (likes comments shares views : ℝ)
    (post : Post) (hw : ∀ p ∈ prefs, 0 ≤ p.2)
    (hl : 0 ≤ likes) (hc : 0 ≤ comments) (hs : 0 ≤ shares) (hv : 0 ≤ views)
    (hpl : 0 ≤ post.likesCount.getD 0) (hpc : 0 ≤ post.commentsCount.getD 0)
    (hps : 0 ≤ post.sharesCount.getD 0) (hpv : 0 ≤ post.viewsCount.getD 0) :
    (0 ≤ calculatePersonalizationScore postTags prefs ∧
      calculatePersonalizationScore postTags prefs ≤ 1) ∧
    (0 ≤ calculateRecencyScore now d ∧ calculateRecencyScore now d ≤ 1) ∧
    (0 ≤ calculatePopularityScore likes comments shares views d now ∧
      calculatePopularityScore likes comments shares views d now ≤ 1) ∧
    (PERSONALIZATION_WEIGHT + RECENCY_WEIGHT + POPULARITY_WEIGHT = 1 ∧
      0 ≤ PERSONALIZATION_WEIGHT ∧ 0 ≤ RECENCY_WEIGHT ∧ 0 ≤ POPULARITY_WEIGHT) ∧
    (0 ≤ calculateRankingScore now post prefs ∧
      calculateRankingScore now post prefs ≤ 1) := by
  refine ⟨calculatePersonalizationScore_bounds postTags prefs hw,
    calculateRecencyScore_bounds now d,
    calculatePopularityScore_bounds likes comments shares views d now hl hc hs hv,
    ⟨by norm_num [PERSONALIZATION_WEIGHT, RECENCY_WEIGHT, POPULARITY_WEIGHT],
      by norm_num [PERSONALIZATION_WEIGHT],
      by norm_num [RECENCY_WEIGHT],
      by norm_num [POPULARITY_WEIGHT]⟩, ?_⟩
  cases hbody : rankingScoreBody now post prefs with
  | ok v =>
    have := rankingScoreBody_ok_bounds now post prefs hw hpl hpc hps hpv v hbody
    rw [calculateRankingScore, hbody]
    exact this
  | error e =>
    rw [calculateRankingScore, hbody]
    norm_num

/-- C2 witness: concrete instance of the bound statement. -/
theorem rankingScores_bounded_witness :
    ((∀ p ∈ ([] : List (String × ℝ)), 0 ≤ p.2) ∧ (0:ℝ) ≤ 0 ∧
      0 ≤ (Post.mk TagsField.missing none none none none DateField.missing).likesCount.getD 0) ∧
    (0 ≤ calculateRankingScore 0 (Post.mk TagsField.missing none none none none DateField.missing) [] ∧
      calculateRankingScore 0 (Post.mk TagsField.missing none none none none DateField.missing) [] ≤ 1) := by
  have h := rankingScores_bounded 0 [] [] none 0 0 0 0
    (Post.mk TagsField.missing none none none none DateField.missing)
    (by simp) le_rfl le_rfl le_rfl le_rfl
    (by simp) (by simp) (by simp) (by simp)
  exact ⟨⟨by simp, le_rfl, by simp⟩, h.2.2.2.2⟩

/-- C8: `calculateBatchRankingScores` annotates exactly the input posts (same
posts, same length) with their `calculateRankingScore`, and any exception
raised while scoring a single post is caught by the per-post `try`/`catch`
and converted into the score 0 instead of aborting the batch. -/
theorem batchScores_total (now : ℝ) (posts : List Post) (prefs : List (String × ℝ)) :
    ((calculateBatchRankingScores now posts prefs).map (fun r => r.post) = posts) ∧
    ((calculateBatchRankingScores now posts prefs).length = posts.length) ∧
    (∀ r ∈ calculateBatchRankingScores now posts prefs,
      r.rankingScore = calculateRankingScore now r.post prefs) ∧
    (∀ post : Post, rankingScoreBody now post prefs = .error () →
      calculateRankingScore now post prefs = 0) := by
  refine ⟨?_, ?_, ?_, ?_⟩
  · induction posts with
    | nil => rfl
    | cons p rest ih =>
      simpa [calculateBatchRankingScores] using ih
  · simp [calculateBatchRankingScores]
  · intro r hr
    simp only [calculateBatchRankingScores, List.mem_map] at hr
    obtain ⟨p, _, rfl⟩ := hr
    rfl
  · intro post herr
    rw [calculateRankingScore, herr]

/-- C8 witness: a post whose truthy non-array tags field makes the scoring
body raise is scored 0. -/
theorem batchScores_total_witness :
    rankingScoreBody 0 (Post.mk TagsField.malformed none none none none DateField.missing) [] =
      .error () ∧
    calculateRankingScore 0 (Post.mk TagsField.malformed none none none none DateField.missing) [] =
      0 := by
  have herr : rankingScoreBody 0
      (Post.mk TagsField.malformed none none none none DateField.missing) [] = .error () := rfl
  exact ⟨herr, (batchScores_total 0 [] []).2.2.2 _ herr⟩

/-! ## Diversity reranker (rankingService.js 208-262) -/

/-- `RankingService.calculateTagOverlap`: Jaccard overlap of the lowercased
tag sets; 0 when either list is empty.  The value is only ever compared with
the rational threshold 0.5, so it is modelled in `ℚ`. -/
def calculateTagOverlap (tags1 tags2 : List String) : ℚ :=
  if tags1 = [] ∨ tags2 = [] then 0
  else
    let set1 := (tags1.map jsToLower).dedup
    let set2 := (tags2.map jsToLower).dedup
    let inter := set1.filter (fun x => set2.contains x)
    let union := (set1 ++ set2).dedup
    (inter.length : ℚ) / (union.length : ℚ)

/-- The `while` loop of `applyDiversity`, with one unit of fuel per iteration
(`applyDiversity` supplies `remaining.length`, which is exactly the number of
iterations the loop makes, since each iteration removes one element).  `rand
k` abstracts the outcome of the draw `Math.random() < diversityFactor` in
iteration `k` — the draw only matters when the dissimilar set is non-empty,
exactly as in the source's short-circuit condition.  Removing the element at
the first index whose overlap with the last placed post is below 0.5 is the
source's `different[0]` followed by `remaining.splice(remaining.indexOf(nextPost), 1)`:
the first value equal to `different[0]` passes the same tag-only filter, so
`indexOf` lands on that first passing index. -/
def applyDiversityAux {α : Type} (tagsOf : α → List String) (rand : ℕ → Bool) :
    ℕ → ℕ → α → List α → List α
  | 0, _, _, remaining => remaining
  | _ + 1, _, _, [] => []
  | fuel + 1, k, lastPost, h :: t =>
    let idx := (h :: t).findIdx
      (fun p => decide (calculateTagOverlap (tagsOf lastPost) (tagsOf p) < 1/2))
    if hlt : idx < (h :: t).length then
      if rand k then
        let next := (h :: t).get ⟨idx, hlt⟩
        next :: applyDiversityAux tagsOf rand fuel (k + 1) next ((h :: t).eraseIdx idx)
      else
        h :: applyDiversityAux tagsOf rand fuel (k + 1) h t
    else
      h :: applyDiversityAux tagsOf rand fuel (k + 1) h t

/-- `RankingService.applyDiversity`: lists of length at most 1 and
non-positive diversity factors are returned unchanged; otherwise the top
post is kept first and the loop reorders the rest. -/
def applyDiversity {α : Type} (tagsOf : α → List String) (rand : ℕ → Bool)
    (posts : List α) (diversityFactor : ℚ) : List α :=
  if posts.length ≤ 1 ∨ diversityFactor ≤ 0 then posts
  else
    match posts with
    | [] => []
    | h :: t => h :: applyDiversityAux tagsOf rand t.length 0 h t

theorem get_cons_eraseIdx_perm {α : Type} :
    ∀ (l : List α) (i : ℕ) (h : i < l.length),
      List.Perm (l.get ⟨i, h⟩ :: l.eraseIdx i) l := by
  intro l
  induction l with
  | nil => intro i h; simp at h
  | cons a t ih =>
    intro i h
    cases i with
    | zero => simp
    | succ j =>
      have hj : j < t.length := by simpa using h
      have step : List.Perm (t.get ⟨j, hj⟩ :: a :: t.eraseIdx j)
          (a :: (t.get ⟨j, hj⟩ :: t.eraseIdx j)) :=
        List.Perm.swap a (t.get ⟨j, hj⟩) (t.eraseIdx j)
      exact step.trans ((ih j hj).cons a)

theorem applyDiversityAux_perm {α : Type} (tagsOf : α → List String)
    (rand : ℕ → Bool) :
    ∀ (fuel k : ℕ) (lastPost : α) (remaining : List α),
      List.Perm (applyDiversityAux tagsOf rand fuel k lastPost remaining) remaining := by
  intro fuel
  induction fuel with
  | zero => intro k lastPost remaining; exact List.Perm.refl remaining
  | succ n ih =>
    intro k lastPost remaining
    cases remaining with
    | nil => exact List.Perm.refl []
    | cons h t =>
      rw [applyDiversityAux]
      split
      next hlt =>
        split
        · exact ((ih _ _ _).cons _).trans (get_cons_eraseIdx_perm (h :: t) _ hlt)
        · exact (ih _ _ _).cons h
      next => exact (ih _ _ _).cons h

/-! ### Claim C7 -/

/-- C7: for every input list, diversity factor and outcome of the internal
random draws, `applyDiversity` returns a permutation of its input — the same
multiset of posts, none lost and none duplicated, with the same length. -/
theorem applyDiversity_perm {α : Type} (tagsOf : α → List String)
    (rand : ℕ → Bool) (posts : List α) (diversityFactor : ℚ) :
    List.Perm (applyDiversity tagsOf rand posts diversityFactor) posts ∧
    (applyDiversity tagsOf rand posts diversityFactor).length = posts.length := by
  have hperm : List.Perm (applyDiversity tagsOf rand posts diversityFactor) posts := by
    rw [applyDiversity.eq_def]
    split
    · exact List.Perm.refl posts
    · cases posts with
      | nil => exact List.Perm.refl []
      | cons h t => exact (applyDiversityAux_perm tagsOf rand t.length 0 h t).cons h
  exact ⟨hperm, hperm.length_eq⟩

/-! ## Feed cache and like-driven invalidation
(constants.js `CACHE_KEYS`, feedController.js `getPersonalizedFeed`,
personalizationService.js `updateUserPreferencesOnLike`) -/

/-- `CACHE_KEYS.USER_FEED(userId)`. -/
def USER_FEED (userId : String) : String := "feed:user:" ++ userId

/-- `CACHE_KEYS.USER_LIKED_TAGS(userId)`. -/
def USER_LIKED_TAGS (userId : String) : String := "tags:user:" ++ userId

/-- The cache key written and read by `getPersonalizedFeed`:
`USER_FEED(userId) + ":page:limit:(tags or all)"`. -/
def feedCacheKey (userId page limit : String) (tags : Option String) : String :=
  USER_FEED userId ++ ":" ++ page ++ ":" ++ limit ++ ":" ++ tags.getD "all"

/-- The key-value store behind `cacheService`. -/
def Cache : Type := String → Option String

/-- `cacheService.delete(key)`. -/
def cacheDelete (key : String) (c : Cache) : Cache :=
  fun k => if k = key then none else c k

/-- The cache effect of `updateUserPreferencesOnLike` (personalizationService
344-368): the only cache call it makes is
`cacheService.delete(CACHE_KEYS.USER_LIKED_TAGS(userId))`. -/
def updateUserPreferencesOnLikeCache (userId : String) (c : Cache) : Cache :=
  cacheDelete (USER_LIKED_TAGS userId) c

/-- The cache-read phase of `getPersonalizedFeed` (feedController 40-53):
unless `refresh` is set, a present entry under the feed cache key is returned
as the response (`some page` = served from cache; `none` = recomputed). -/
def feedReadCached (c : Cache) (userId page limit : String) (tags : Option String)
    (refresh : Bool) : Option String :=
  if refresh then none else c (feedCacheKey userId page limit tags)

theorem feedCacheKey_ne_likedTags (u p l : String) (t : Option String) (u' : String) :
    feedCacheKey u p l t ≠ USER_LIKED_TAGS u' := by
  intro h
  have h2 : (feedCacheKey u p l t).data = (USER_LIKED_TAGS u').data := congrArg _ h
  rw [feedCacheKey, USER_FEED, USER_LIKED_TAGS] at h2
  simp only [String.data_append] at h2
  simp at h2

/-! ### Claim C6 -/

/-- A cache state holding one personalized feed page for user `u`. -/
def c6cache : Cache :=
  fun k => if k = feedCacheKey "u" "1" "20" none then some "cachedPage" else none

/-- C6 counterexample: after user `u` likes a post (which runs the cache
invalidation of `updateUserPreferencesOnLike`), the previously cached feed
page for `u` is still present under its feed key, and the next cache read of
the feed (without the refresh flag) still serves it; no feed key was deleted,
only the preferred-tags key. -/
theorem likeInvalidation_counterexample :
    updateUserPreferencesOnLikeCache "u" c6cache (feedCacheKey "u" "1" "20" none) =
      some "cachedPage" ∧
    feedReadCached (updateUserPreferencesOnLikeCache "u" c6cache) "u" "1" "20" none false =
      some "cachedPage" ∧
    updateUserPreferencesOnLikeCache "u" c6cache (USER_FEED "u") = none ∧
    c6cache (USER_LIKED_TAGS "u") = none := by
  decide

/-- C6 (amended): the like-driven invalidation deletes exactly the user's
preferred-tags cache key (`tags:user:{id}`); it deletes no feed cache key
(`feed:user:{id}:page:limit:tags`), so the cache-read phase of the feed
endpoint behaves identically before and after the invalidation and a
previously cached feed page keeps being served until TTL expiry or an
explicit refresh. -/
theorem likeInvalidation_amended (userId : String) (c : Cache)
    (page limit : String) (tags : Option String) :
    updateUserPreferencesOnLikeCache userId c (USER_LIKED_TAGS userId) = none ∧
    updateUserPreferencesOnLikeCache userId c (feedCacheKey userId page limit tags) =
      c (feedCacheKey userId page limit tags) ∧
    feedReadCached (updateUserPreferencesOnLikeCache userId c) userId page limit tags false =
      feedReadCached c userId page limit tags false := by
  refine ⟨?_, ?_, ?_⟩
  · rw [updateUserPreferencesOnLikeCache, cacheDelete]
    simp
  · rw [updateUserPreferencesOnLikeCache, cacheDelete]
    simp [feedCacheKey_ne_likedTags]
  · rw [feedReadCached, feedReadCached]
    simp only [Bool.false_eq_true, if_false]
    rw [updateUserPreferencesOnLikeCache, cacheDelete]
    simp [feedCacheKey_ne_likedTags]
